import Mathlib

/-!
# Verification of the pyproc framing, pool, worker and transport layers

Shallow embedding of the Go sources of `pyproc`:

* `internal/framing/framing.go` — the classic length-prefixed framer
  (`Framer.WriteMessage` / `Framer.ReadMessage`).
* `internal/framing` enhanced frames — `NewFrame`, `Frame.Marshal`,
  `UnmarshalFrame` with the CRC32C (Castagnoli) checksum.
* `pkg/pyproc/pool.go` — round-robin worker selection, unhealthy-worker
  fallback and pool shutdown.
* `pkg/pyproc/worker.go` — the worker lifecycle state machine.
* `pkg/pyproc/transport_multiplexed.go` — terminal read-error handling.

Byte slices are modelled as `List Nat` whose elements are below 256; Go's
fixed-width unsigned integers are modelled as `Nat` with explicit `% 2 ^ 32`
(resp. `% 2 ^ 64`) at every point where the Go code truncates.  Fallible Go
functions returning `(T, error)` are modelled with `Except String T`; where
the Go code can panic, the model returns `Option`.
-/

namespace Pyproc

/-! ## Big-endian encoding (`encoding/binary`)

`binary.BigEndian.PutUint32` stores the four bytes of its `uint32` argument
most significant first; the conversion `uint32 e` in the callers truncates
with `% 2 ^ 32`, which is folded into the encoder. -/

/-- The four bytes written by `binary.BigEndian.PutUint32` (most significant
first) for the value `v % 2 ^ 32`. -/
def be32enc (v : Nat) : List Nat :=
  [v % 2 ^ 32 / 2 ^ 24, v % 2 ^ 32 / 2 ^ 16 % 256, v % 2 ^ 32 / 2 ^ 8 % 256, v % 2 ^ 32 % 256]

/-- The eight bytes written by `binary.BigEndian.PutUint64` (most significant
first) for the value `v % 2 ^ 64`. -/
def be64enc (v : Nat) : List Nat :=
  [v % 2 ^ 64 / 2 ^ 56, v % 2 ^ 64 / 2 ^ 48 % 256, v % 2 ^ 64 / 2 ^ 40 % 256,
   v % 2 ^ 64 / 2 ^ 32 % 256, v % 2 ^ 64 / 2 ^ 24 % 256, v % 2 ^ 64 / 2 ^ 16 % 256,
   v % 2 ^ 64 / 2 ^ 8 % 256, v % 2 ^ 64 % 256]

/-- `binary.BigEndian.Uint32(data[k:k+4])`: the big-endian 32-bit word made of
the four bytes of `data` starting at offset `k` (0 if the slice is too
short; the Go call sites always guard the length first). -/
def word32At (data : List Nat) (k : Nat) : Nat :=
  match data.drop k with
  | b3 :: b2 :: b1 :: b0 :: _ => ((b3 * 256 + b2) * 256 + b1) * 256 + b0
  | _ => 0

/-- `binary.BigEndian.Uint64(data[k:k+8])`, analogous to `word32At`. -/
def word64At (data : List Nat) (k : Nat) : Nat :=
  match data.drop k with
  | b7 :: b6 :: b5 :: b4 :: b3 :: b2 :: b1 :: b0 :: _ =>
      ((((((b7 * 256 + b6) * 256 + b5) * 256 + b4) * 256 + b3) * 256 + b2) * 256 + b1) * 256 + b0
  | _ => 0

@[simp] theorem be32enc_length (v : Nat) : (be32enc v).length = 4 := rfl

@[simp] theorem be64enc_length (v : Nat) : (be64enc v).length = 8 := rfl

theorem be32_arith (w : Nat) (h : w < 2 ^ 32) :
    ((w / 2 ^ 24 * 256 + w / 2 ^ 16 % 256) * 256 + w / 2 ^ 8 % 256) * 256 + w % 256 = w := by
  omega

theorem be64_arith (w : Nat) (h : w < 2 ^ 64) :
    ((((((w / 2 ^ 56 * 256 + w / 2 ^ 48 % 256) * 256 + w / 2 ^ 40 % 256) * 256
      + w / 2 ^ 32 % 256) * 256 + w / 2 ^ 24 % 256) * 256 + w / 2 ^ 16 % 256) * 256
      + w / 2 ^ 8 % 256) * 256 + w % 256 = w := by
  omega

/-- Decoding the four bytes written by `be32enc` recovers the value mod `2 ^ 32`. -/
theorem word32At_be32enc (v : Nat) (r : List Nat) :
    word32At (be32enc v ++ r) 0 = v % 2 ^ 32 := by
  have h : v % 2 ^ 32 < 2 ^ 32 := Nat.mod_lt _ (by norm_num)
  simp only [word32At, be32enc, List.cons_append, List.drop_zero]
  exact be32_arith (v % 2 ^ 32) h

/-! ## Classic framing (`internal/framing/framing.go`)

A `Framer` owns an `io.ReadWriter` and a maximum frame size.  The byte
stream is modelled explicitly: `WriteMessage` returns the bytes that reach
the underlying writer, `ReadMessage` consumes a prefix of the given stream
and returns the decoded message together with the unread remainder.  In the
Go code the size check of `WriteMessage` happens before either
`f.rw.Write` call, so in the error case no byte reaches the writer — the
model reflects this by producing no output on error. -/

/-- `framing.DefaultMaxFrameSize` (10 MiB). -/
def DefaultMaxFrameSize : Nat := 10 * 1024 * 1024

/-- The framer state: only the configured maximum frame size matters for the
pure byte-level behaviour. -/
structure Framer where
  maxFrameSize : Nat

/-- `framing.NewFramer`. -/
def NewFramer : Framer := ⟨DefaultMaxFrameSize⟩

/-- `framing.NewFramerWithMaxSize`. -/
def NewFramerWithMaxSize (maxSize : Nat) : Framer := ⟨maxSize⟩

/-- `Framer.WriteMessage`: reject over-long messages, otherwise write the
4-byte big-endian length header (`uint32(len(data))`, truncating) followed
by the message bytes. -/
def Framer.WriteMessage (f : Framer) (data : List Nat) : Except String (List Nat) :=
  if data.length > f.maxFrameSize then
    Except.error "message size exceeds max frame size"
  else
    Except.ok (be32enc data.length ++ data)

/-- `Framer.ReadMessage`: read a 4-byte length header, enforce the maximum,
then read that many payload bytes.  Returns the message and the rest of the
stream; a short stream models a failed `io.ReadFull`. -/
def Framer.ReadMessage (f : Framer) (stream : List Nat) : Except String (List Nat × List Nat) :=
  if stream.length < 4 then Except.error "failed to read frame length"
  else
    let length := word32At stream 0
    if length > f.maxFrameSize then Except.error "frame size exceeds max frame size"
    else if stream.length - 4 < length then Except.error "failed to read frame data"
    else Except.ok ((stream.drop 4).take length, stream.drop (4 + length))

theorem drop_four_be32enc (v : Nat) (r : List Nat) : (be32enc v ++ r).drop 4 = r := by
  have h : (be32enc v).length = 4 := rfl
  rw [← h, List.drop_left]

/-- Claim C1 (amended): classic frame round-trip.  For every byte sequence
`b` whose length is at most the configured maximum frame size **and below
`2 ^ 32`** (so that the `uint32` length header does not truncate), writing
`b` with `Framer.WriteMessage` and reading the produced bytes back with
`Framer.ReadMessage` returns exactly `b`, consuming the whole stream; and
for every `b` longer than the maximum frame size, `WriteMessage` fails (in
the Go code the size check precedes both writes, so nothing reaches the
underlying writer). -/
theorem classic_frame_roundtrip (f : Framer) (b : List Nat) :
    (b.length ≤ f.maxFrameSize → b.length < 2 ^ 32 →
      f.WriteMessage b = Except.ok (be32enc b.length ++ b) ∧
      f.ReadMessage (be32enc b.length ++ b) = Except.ok (b, [])) ∧
    (f.maxFrameSize < b.length →
      f.WriteMessage b = Except.error "message size exceeds max frame size") := by
  constructor
  · intro hle h32
    constructor
    · simp [Framer.WriteMessage, Nat.not_lt.mpr hle]
    · have hlen : (be32enc b.length ++ b).length = 4 + b.length := by
        simp [be32enc]
        omega
      have hw : word32At (be32enc b.length ++ b) 0 = b.length := by
        rw [word32At_be32enc, Nat.mod_eq_of_lt h32]
      simp only [Framer.ReadMessage, hlen, hw]
      rw [if_neg (by omega), if_neg (by omega), if_neg (by omega)]
      rw [drop_four_be32enc, List.take_length, ← List.drop_drop, drop_four_be32enc,
        List.drop_length]
  · intro hgt
    simp [Framer.WriteMessage, hgt]

/-- Witness for C1 at a concrete input: a 3-byte message round-trips through
a framer with maximum size 10. -/
theorem classic_frame_roundtrip_witness :
    (NewFramerWithMaxSize 10).WriteMessage [1, 2, 3] =
      Except.ok (be32enc ([1, 2, 3] : List Nat).length ++ [1, 2, 3]) ∧
    (NewFramerWithMaxSize 10).ReadMessage (be32enc ([1, 2, 3] : List Nat).length ++ [1, 2, 3]) =
      Except.ok ([1, 2, 3], []) :=
  (classic_frame_roundtrip (NewFramerWithMaxSize 10) [1, 2, 3]).1
    (by simp [NewFramerWithMaxSize]) (by norm_num)

/-- Counterexample to C1 as stated: with a configured maximum frame size of
`2 ^ 32` and a message of exactly `2 ^ 32` bytes (allowed by the claim,
since `|b| ≤ max`), the `uint32(len(data))` conversion in `WriteMessage`
truncates the length header to 0, and reading the resulting stream returns
the empty message instead of `b`. -/
theorem classic_frame_roundtrip_cx :
    (List.replicate (2 ^ 32) 0).length ≤ 2 ^ 32 ∧
    (NewFramerWithMaxSize (2 ^ 32)).WriteMessage (List.replicate (2 ^ 32) 0) =
      Except.ok (be32enc (2 ^ 32) ++ List.replicate (2 ^ 32) 0) ∧
    (NewFramerWithMaxSize (2 ^ 32)).ReadMessage (be32enc (2 ^ 32) ++ List.replicate (2 ^ 32) 0) =
      Except.ok ([], List.replicate (2 ^ 32) 0) ∧
    ([] : List Nat) ≠ List.replicate (2 ^ 32) 0 := by
  have hR : (List.replicate (2 ^ 32) (0 : Nat)).length = 2 ^ 32 := List.length_replicate _ _
  refine ⟨by rw [hR], ?_, ?_, ?_⟩
  · simp only [Framer.WriteMessage, NewFramerWithMaxSize, hR]
    rw [if_neg (by omega)]
  · have hlen : (be32enc (2 ^ 32) ++ List.replicate (2 ^ 32) 0).length = 4 + 2 ^ 32 := by
      rw [List.length_append, be32enc_length, hR]
    have hw : word32At (be32enc (2 ^ 32) ++ List.replicate (2 ^ 32) 0) 0 = 0 := by
      rw [word32At_be32enc, Nat.mod_self]
    simp only [Framer.ReadMessage, NewFramerWithMaxSize, hlen, hw]
    rw [if_neg (by omega), if_neg (by omega), if_neg (by omega)]
    rw [List.take_zero, Nat.add_zero, drop_four_be32enc]
  · intro h
    have hc := congrArg List.length h
    rw [List.length_nil, hR] at hc
    omega

/-! ## CRC32C (`hash/crc32` with `crc32.MakeTable(crc32.Castagnoli)`)

Go computes the checksum with a 256-entry lookup table built from the
reflected Castagnoli polynomial; the table lookup
`tab[byte(crc)^b] ^ (crc >> 8)` is the standard table form of xoring the
byte into the low bits and running eight single-bit steps, which is the
definition used here.  The initial value is `0xFFFFFFFF` and the result is
complemented (`^crc`) at both ends, exactly as in `crc32.update`. -/

/-- The reflected Castagnoli polynomial (`crc32.Castagnoli`). -/
def crc32cPoly : Nat := 0x82F63B78

/-- One bit of the reflected CRC division: shift right, xor the polynomial
if the bit shifted out was set. -/
def crcStep (c : Nat) : Nat :=
  if c % 2 = 1 then c / 2 ^^^ crc32cPoly else c / 2

/-- Process one byte: xor it into the low bits, then run eight bit steps. -/
def crcByte (c b : Nat) : Nat := crcStep^[8] (c ^^^ b)

/-- `crc32.Checksum(data, crc32cTable)`. -/
def crc32c (data : List Nat) : Nat := data.foldl crcByte 0xFFFFFFFF ^^^ 0xFFFFFFFF

example : crc32c [] = 0 := by decide

set_option maxRecDepth 8192 in
example : crc32c [0x31, 0x32, 0x33, 0x34, 0x35, 0x36, 0x37, 0x38, 0x39] = 0xE3069283 := by
  decide

theorem crcStep_lt (c : Nat) (h : c < 2 ^ 32) : crcStep c < 2 ^ 32 := by
  unfold crcStep
  split
  · exact Nat.xor_lt_two_pow (by omega) (by norm_num [crc32cPoly])
  · omega

theorem crcStep_inj (c d : Nat) (hc : c < 2 ^ 32) (hd : d < 2 ^ 32)
    (h : crcStep c = crcStep d) : c = d := by
  have hp31 : Nat.testBit crc32cPoly 31 = true := by decide
  unfold crcStep at h
  by_cases h1 : c % 2 = 1 <;> by_cases h2 : d % 2 = 1
  · rw [if_pos h1, if_pos h2] at h
    have := Nat.xor_left_inj.mp h
    omega
  · rw [if_pos h1, if_neg h2] at h
    have hb := congrArg (fun x => Nat.testBit x 31) h
    simp only [Nat.testBit_xor, hp31] at hb
    rw [Nat.testBit_eq_false_of_lt (show c / 2 < 2 ^ 31 by omega),
      Nat.testBit_eq_false_of_lt (show d / 2 < 2 ^ 31 by omega)] at hb
    simp at hb
  · rw [if_neg h1, if_pos h2] at h
    have hb := congrArg (fun x => Nat.testBit x 31) h
    simp only [Nat.testBit_xor, hp31] at hb
    rw [Nat.testBit_eq_false_of_lt (show c / 2 < 2 ^ 31 by omega),
      Nat.testBit_eq_false_of_lt (show d / 2 < 2 ^ 31 by omega)] at hb
    simp at hb
  · rw [if_neg h1, if_neg h2] at h
    omega

theorem crcIter_lt (n c : Nat) (h : c < 2 ^ 32) : crcStep^[n] c < 2 ^ 32 := by
  induction n generalizing c with
  | zero => simpa using h
  | succ k ih =>
    rw [Function.iterate_succ_apply]
    exact ih _ (crcStep_lt _ h)

theorem crcIter_inj (n c d : Nat) (hc : c < 2 ^ 32) (hd : d < 2 ^ 32)
    (h : crcStep^[n] c = crcStep^[n] d) : c = d := by
  induction n generalizing c d with
  | zero => simpa using h
  | succ k ih =>
    rw [Function.iterate_succ_apply, Function.iterate_succ_apply] at h
    exact crcStep_inj c d hc hd (ih _ _ (crcStep_lt _ hc) (crcStep_lt _ hd) h)

theorem crcByte_lt (c b : Nat) (hc : c < 2 ^ 32) (hb : b < 256) : crcByte c b < 2 ^ 32 :=
  crcIter_lt 8 _ (Nat.xor_lt_two_pow hc (by omega))

theorem crcByte_inj (c d b : Nat) (hc : c < 2 ^ 32) (hd : d < 2 ^ 32) (hb : b < 256)
    (h : crcByte c b = crcByte d b) : c = d :=
  Nat.xor_left_inj.mp
    (crcIter_inj 8 _ _ (Nat.xor_lt_two_pow hc (by omega)) (Nat.xor_lt_two_pow hd (by omega)) h)

theorem crcByte_byte_inj (c b b2 : Nat) (hc : c < 2 ^ 32) (hb : b < 256) (hb2 : b2 < 256)
    (h : crcByte c b = crcByte c b2) : b = b2 :=
  Nat.xor_right_inj.mp
    (crcIter_inj 8 _ _ (Nat.xor_lt_two_pow hc (by omega)) (Nat.xor_lt_two_pow hc (by omega)) h)

theorem crcFold_lt (l : List Nat) (c : Nat) (hl : ∀ x ∈ l, x < 256) (hc : c < 2 ^ 32) :
    l.foldl crcByte c < 2 ^ 32 := by
  induction l generalizing c with
  | nil => simpa using hc
  | cons b t ih =>
    rw [List.foldl_cons]
    exact ih _ (fun x hx => hl x (List.mem_cons_of_mem _ hx))
      (crcByte_lt _ _ hc (hl b (List.mem_cons_self _ _)))

theorem crcFold_inj : ∀ (l : List Nat) (c d : Nat), (∀ x ∈ l, x < 256) → c < 2 ^ 32 →
    d < 2 ^ 32 → l.foldl crcByte c = l.foldl crcByte d → c = d := by
  intro l
  induction l with
  | nil =>
    intro c d _ _ _ h
    simpa using h
  | cons b t ih =>
    intro c d hl hc hd h
    rw [List.foldl_cons, List.foldl_cons] at h
    have hb : b < 256 := hl b (List.mem_cons_self _ _)
    exact crcByte_inj c d b hc hd hb
      (ih _ _ (fun x hx => hl x (List.mem_cons_of_mem _ hx))
        (crcByte_lt _ _ hc hb) (crcByte_lt _ _ hd hb) h)

theorem crcFold_set_ne : ∀ (l : List Nat) (i c v : Nat), (∀ x ∈ l, x < 256) →
    c < 2 ^ 32 → i < l.length → v < 256 → v ≠ l.getD i 0 →
    l.foldl crcByte c ≠ (l.set i v).foldl crcByte c := by
  intro l
  induction l with
  | nil =>
    intro i c v _ _ hi
    simp at hi
  | cons b t ih =>
    intro i c v hl hc hi hv hne
    have hb : b < 256 := hl b (List.mem_cons_self _ _)
    have ht : ∀ x ∈ t, x < 256 := fun x hx => hl x (List.mem_cons_of_mem _ hx)
    cases i with
    | zero =>
      rw [List.set_cons_zero, List.foldl_cons, List.foldl_cons]
      intro h
      have hbv : crcByte c b = crcByte c v :=
        crcFold_inj t _ _ ht (crcByte_lt _ _ hc hb) (crcByte_lt _ _ hc hv) h
      exact hne (crcByte_byte_inj c b v hc hb hv hbv).symm
    | succ i2 =>
      rw [List.set_cons_succ, List.foldl_cons, List.foldl_cons]
      exact ih i2 (crcByte c b) v ht (crcByte_lt _ _ hc hb) (by simpa using hi) hv
        (by simpa using hne)

theorem crc32c_lt (l : List Nat) (hl : ∀ x ∈ l, x < 256) : crc32c l < 2 ^ 32 :=
  Nat.xor_lt_two_pow (crcFold_lt l _ hl (by norm_num)) (by norm_num)

/-- Changing one in-range byte of a byte list to a different in-range value
changes the CRC32C checksum. -/
theorem crc32c_set_ne (l : List Nat) (i v : Nat) (hl : ∀ x ∈ l, x < 256) (hi : i < l.length)
    (hv : v < 256) (hne : v ≠ l.getD i 0) : crc32c l ≠ crc32c (l.set i v) := by
  unfold crc32c
  intro h
  exact crcFold_set_ne l i _ v hl (by norm_num) hi hv hne (Nat.xor_left_inj.mp h)

/-! ## Enhanced frames (`NewFrame`, `Frame.Marshal`, `UnmarshalFrame`)

`Frame.Marshal` allocates `make([]byte, f.Header.Length)` (zero-initialised)
and writes the fields at fixed offsets; when `Header.Length < 18` the Go
slicing `buf[2:6]` etc. panics, which the model renders as `none`.  When
`Header.Length` exceeds `18 + len(Payload)`, `copy` leaves the zero padding
in place; when it is smaller, the payload is truncated — the model keeps
both behaviours (`take` and `replicate`). -/

/-- `framing.FrameHeaderSize`: 2 (magic) + 4 (length) + 8 (request ID) + 4 (CRC32C). -/
def FrameHeaderSize : Nat := 18

/-- `framing.MagicByte1`. -/
def MagicByte1 : Nat := 0x50

/-- `framing.MagicByte2`. -/
def MagicByte2 : Nat := 0x59

/-- `framing.FrameHeader`. -/
structure FrameHeader where
  magic0 : Nat
  magic1 : Nat
  length : Nat
  requestID : Nat
  CRC32C : Nat

/-- `framing.Frame`. -/
structure Frame where
  header : FrameHeader
  payload : List Nat

/-- `framing.NewFrame`: `Length` is `uint32(FrameHeaderSize + len(payload))`
(truncating) and `RequestID` is the `uint64` argument. -/
def NewFrame (requestID : Nat) (payload : List Nat) : Frame :=
  { header :=
      { magic0 := MagicByte1
        magic1 := MagicByte2
        length := (FrameHeaderSize + payload.length) % 2 ^ 32
        requestID := requestID % 2 ^ 64
        CRC32C := crc32c payload }
    payload := payload }

/-- `Frame.Marshal`. -/
def Frame.Marshal (f : Frame) : Option (List Nat) :=
  if f.header.length < FrameHeaderSize then none
  else
    some ([f.header.magic0, f.header.magic1] ++ be32enc f.header.length ++
      be64enc f.header.requestID ++ be32enc f.header.CRC32C ++
      (f.payload.take (f.header.length - FrameHeaderSize) ++
        List.replicate (f.header.length - FrameHeaderSize - f.payload.length) 0))

/-- `framing.UnmarshalFrame`: length guard, magic check, total-length check,
CRC32C check, in the order of the Go code. -/
def UnmarshalFrame (data : List Nat) : Except String Frame :=
  if data.length < FrameHeaderSize then Except.error "frame too short"
  else if data.getD 0 0 ≠ MagicByte1 ∨ data.getD 1 0 ≠ MagicByte2 then
    Except.error "invalid magic bytes"
  else if word32At data 2 ≠ data.length then Except.error "frame length mismatch"
  else if crc32c (data.drop FrameHeaderSize) ≠ word32At data 14 then
    Except.error "CRC32C mismatch"
  else
    Except.ok
      { header :=
          { magic0 := data.getD 0 0
            magic1 := data.getD 1 0
            length := word32At data 2
            requestID := word64At data 6
            CRC32C := word32At data 14 }
        payload := data.drop FrameHeaderSize }

theorem be64enc_mod (v : Nat) : be64enc (v % 2 ^ 64) = be64enc v := by
  have h : v % 2 ^ 64 % 2 ^ 64 = v % 2 ^ 64 := Nat.mod_eq_of_lt (Nat.mod_lt _ (by norm_num))
  simp only [be64enc, h]

/-- Layout of `Frame.Marshal` of a `NewFrame` when the total length fits
the 32-bit length field. -/
theorem Marshal_NewFrame (requestID : Nat) (p : List Nat)
    (hlen : FrameHeaderSize + p.length < 2 ^ 32) :
    (NewFrame requestID p).Marshal =
      some ([MagicByte1, MagicByte2] ++ be32enc (FrameHeaderSize + p.length) ++
        be64enc requestID ++ be32enc (crc32c p) ++ p) := by
  have hm : (FrameHeaderSize + p.length) % 2 ^ 32 = FrameHeaderSize + p.length :=
    Nat.mod_eq_of_lt hlen
  simp only [Frame.Marshal, NewFrame, hm]
  rw [if_neg (by omega)]
  rw [show FrameHeaderSize + p.length - FrameHeaderSize = p.length by omega]
  rw [List.take_length, Nat.sub_self, List.replicate_zero, List.append_nil, be64enc_mod]

/-- Claim C2 (amended): enhanced frame wire layout.  Provided the total
length `18 + |payload|` fits the 32-bit length field, `Frame.Marshal` of
`NewFrame id payload` is exactly the magic bytes `0x50 0x59`, the
big-endian 32-bit total length, the big-endian 64-bit request id, the
big-endian 32-bit CRC32C (Castagnoli) of the payload only, and then the
payload, at offsets 0, 2, 6, 14 and 18 respectively. -/
theorem enhanced_frame_layout (requestID : Nat) (p : List Nat)
    (hlen : FrameHeaderSize + p.length < 2 ^ 32) :
    (NewFrame requestID p).Marshal =
      some ([MagicByte1, MagicByte2] ++ be32enc (FrameHeaderSize + p.length) ++
        be64enc requestID ++ be32enc (crc32c p) ++ p) :=
  Marshal_NewFrame requestID p hlen

/-- Witness for C2 at a concrete input. -/
theorem enhanced_frame_layout_witness :
    (NewFrame 7 [1, 2, 3]).Marshal =
      some ([MagicByte1, MagicByte2] ++ be32enc (FrameHeaderSize + ([1, 2, 3] : List Nat).length) ++
        be64enc 7 ++ be32enc (crc32c [1, 2, 3]) ++ [1, 2, 3]) :=
  enhanced_frame_layout 7 [1, 2, 3] (by norm_num [FrameHeaderSize])

/-- `Frame.Marshal` of a `NewFrame` whose payload has exactly `2 ^ 32` bytes:
the `uint32` total length wraps around to 18, so the 18-byte buffer holds
the header only and the payload is dropped entirely. -/
theorem marshal_length_wrap (R : List Nat) (hR : R.length = 2 ^ 32) :
    (NewFrame 0 R).Marshal =
      some ([MagicByte1, MagicByte2] ++ be32enc 18 ++ be64enc 0 ++
        be32enc (crc32c R) ++ ([] ++ [])) := by
  have hL : (18 + R.length) % 2 ^ 32 = 18 := by
    rw [hR]
    omega
  simp only [Frame.Marshal, NewFrame, FrameHeaderSize, hL, Nat.zero_mod]
  rw [if_neg (by omega)]
  rw [Nat.sub_self, List.take_zero, Nat.zero_sub, List.replicate_zero]

/-- Counterexample to C2 as stated: for a payload of `2 ^ 32` bytes the
`uint32` total length wraps around to 18, `Marshal` allocates an 18-byte
buffer and the marshalled frame contains no payload at all, so the claimed
layout (whose total size would be `18 + 2 ^ 32`) does not hold. -/
theorem enhanced_frame_layout_cx :
    (NewFrame 0 (List.replicate (2 ^ 32) 0)).Marshal ≠
      some ([MagicByte1, MagicByte2] ++
        be32enc (FrameHeaderSize + (List.replicate (2 ^ 32) 0).length) ++ be64enc 0 ++
        be32enc (crc32c (List.replicate (2 ^ 32) 0)) ++ List.replicate (2 ^ 32) 0) := by
  have hR : (List.replicate (2 ^ 32) (0 : Nat)).length = 2 ^ 32 := List.length_replicate _ _
  intro h
  rw [marshal_length_wrap _ hR, Option.some.injEq] at h
  have hc := congrArg List.length h
  simp only [List.length_append, be32enc_length, be64enc_length, List.length_nil,
    List.length_cons, hR] at hc
  omega

/-- A single-bit flip of a byte of `l` at offset `pos`: the byte is replaced
by itself xor `2 ^ j`. -/
def flipBit (l : List Nat) (pos j : Nat) : List Nat :=
  l.set pos (l.getD pos 0 ^^^ 2 ^ j)

theorem word32At_at (data : List Nat) (k v : Nat) (r : List Nat)
    (h : data.drop k = be32enc v ++ r) : word32At data k = v % 2 ^ 32 := by
  have hv : v % 2 ^ 32 < 2 ^ 32 := Nat.mod_lt _ (by norm_num)
  simp only [word32At, h, be32enc, List.cons_append]
  exact be32_arith (v % 2 ^ 32) hv

theorem drop_eight_be64enc (v : Nat) (r : List Nat) : (be64enc v ++ r).drop 8 = r := by
  have h : (be64enc v).length = 8 := rfl
  rw [← h, List.drop_left]

theorem word64At_at (data : List Nat) (k v : Nat) (r : List Nat)
    (h : data.drop k = be64enc v ++ r) : word64At data k = v % 2 ^ 64 := by
  have hv : v % 2 ^ 64 < 2 ^ 64 := Nat.mod_lt _ (by norm_num)
  simp only [word64At, h, be64enc, List.cons_append]
  exact be64_arith (v % 2 ^ 64) hv

/-- Evaluation of `UnmarshalFrame` on a well-shaped encoded header followed
by a payload: only the CRC32C comparison remains. -/
theorem UnmarshalFrame_encoded (L rid c : Nat) (q : List Nat)
    (hqL : L = 18 + q.length) (hL : L < 2 ^ 32) (hc : c < 2 ^ 32) :
    UnmarshalFrame (([MagicByte1, MagicByte2] ++ be32enc L ++ be64enc rid ++ be32enc c) ++ q) =
      if crc32c q ≠ c then Except.error "CRC32C mismatch"
      else Except.ok
        { header :=
            { magic0 := MagicByte1
              magic1 := MagicByte2
              length := L
              requestID := rid % 2 ^ 64
              CRC32C := c }
          payload := q } := by
  have hlen : (([MagicByte1, MagicByte2] ++ be32enc L ++ be64enc rid ++ be32enc c) ++ q).length =
      18 + q.length := by
    simp only [List.length_append, be32enc_length, be64enc_length, List.length_cons,
      List.length_nil]
  have hg0 : (([MagicByte1, MagicByte2] ++ be32enc L ++ be64enc rid ++ be32enc c) ++ q).getD 0 0 =
      MagicByte1 := rfl
  have hg1 : (([MagicByte1, MagicByte2] ++ be32enc L ++ be64enc rid ++ be32enc c) ++ q).getD 1 0 =
      MagicByte2 := rfl
  have hd2 : (([MagicByte1, MagicByte2] ++ be32enc L ++ be64enc rid ++ be32enc c) ++ q).drop 2 =
      be32enc L ++ (be64enc rid ++ (be32enc c ++ q)) := rfl
  have hd6 : (([MagicByte1, MagicByte2] ++ be32enc L ++ be64enc rid ++ be32enc c) ++ q).drop 6 =
      be64enc rid ++ (be32enc c ++ q) := rfl
  have hd14 : (([MagicByte1, MagicByte2] ++ be32enc L ++ be64enc rid ++ be32enc c) ++ q).drop 14 =
      be32enc c ++ q := rfl
  have hd18 : (([MagicByte1, MagicByte2] ++ be32enc L ++ be64enc rid ++ be32enc c) ++ q).drop 18 =
      q := rfl
  have hw2 : word32At (([MagicByte1, MagicByte2] ++ be32enc L ++ be64enc rid ++ be32enc c) ++ q)
      2 = L := by
    rw [word32At_at _ _ _ _ hd2, Nat.mod_eq_of_lt hL]
  have hw6 : word64At (([MagicByte1, MagicByte2] ++ be32enc L ++ be64enc rid ++ be32enc c) ++ q)
      6 = rid % 2 ^ 64 :=
    word64At_at _ _ _ _ hd6
  have hw14 : word32At (([MagicByte1, MagicByte2] ++ be32enc L ++ be64enc rid ++ be32enc c) ++ q)
      14 = c := by
    rw [word32At_at _ _ _ _ hd14, Nat.mod_eq_of_lt hc]
  simp only [UnmarshalFrame, FrameHeaderSize, hlen, hg0, hg1, hw2, hw6, hw14, hd18]
  rw [if_neg (by omega), if_neg (by simp), if_neg (by omega)]

/-- Claim C6: CRC detects single-bit corruption.  For every request id and
byte payload (each byte below 256, total length in the 32-bit range), and
every single-bit flip of a payload byte of the marshalled enhanced frame
(offset `18 + i` for a payload index `i`, bit `j < 8`), `UnmarshalFrame`
on the corrupted bytes returns an error. -/
theorem crc_detects_bit_flip (requestID : Nat) (p : List Nat) (hp : ∀ x ∈ p, x < 256)
    (hlen : FrameHeaderSize + p.length < 2 ^ 32) (i j : Nat) (hi : i < p.length) (hj : j < 8) :
    ∃ mb, (NewFrame requestID p).Marshal = some mb ∧
      ∃ e, UnmarshalFrame (flipBit mb (FrameHeaderSize + i) j) = Except.error e := by
  refine ⟨_, Marshal_NewFrame requestID p hlen, ?_⟩
  have hHlen : ([MagicByte1, MagicByte2] ++ be32enc (FrameHeaderSize + p.length) ++
      be64enc requestID ++ be32enc (crc32c p) : List Nat).length = 18 := by
    simp only [List.length_append, be32enc_length, be64enc_length, List.length_cons,
      List.length_nil]
  have hflip : flipBit (([MagicByte1, MagicByte2] ++ be32enc (FrameHeaderSize + p.length) ++
      be64enc requestID ++ be32enc (crc32c p)) ++ p) (FrameHeaderSize + i) j =
      ([MagicByte1, MagicByte2] ++ be32enc (FrameHeaderSize + p.length) ++
        be64enc requestID ++ be32enc (crc32c p)) ++ p.set i (p.getD i 0 ^^^ 2 ^ j) := by
    unfold flipBit
    rw [List.getD_append_right _ _ _ _ (by rw [hHlen]; simp [FrameHeaderSize]),
      List.set_append_right _ _ (by rw [hHlen]; simp [FrameHeaderSize]), hHlen]
    rw [show FrameHeaderSize + i - 18 = i by simp [FrameHeaderSize]]
  rw [hflip]
  have hb : p.getD i 0 < 256 := by
    rw [List.getD_eq_getElem _ _ hi]
    exact hp _ (List.getElem_mem hi)
  have hv : p.getD i 0 ^^^ 2 ^ j < 256 := by
    have h2j : 2 ^ j < 256 := by
      calc 2 ^ j < 2 ^ 8 := Nat.pow_lt_pow_right (by norm_num) hj
      _ = 256 := by norm_num
    exact Nat.xor_lt_two_pow (n := 8) hb h2j
  have hvne : p.getD i 0 ^^^ 2 ^ j ≠ p.getD i 0 := by
    intro heq
    have h0 : p.getD i 0 ^^^ 2 ^ j = p.getD i 0 ^^^ 0 := by rw [Nat.xor_zero]; exact heq
    have := Nat.xor_right_inj.mp h0
    exact absurd this (Nat.pos_iff_ne_zero.mp (Nat.pos_pow_of_pos j (by norm_num)))
  rw [UnmarshalFrame_encoded (FrameHeaderSize + p.length) requestID (crc32c p)
    (p.set i (p.getD i 0 ^^^ 2 ^ j))
    (by simp [List.length_set, FrameHeaderSize]) (hlen) (crc32c_lt p hp)]
  rw [if_pos (Ne.symm (crc32c_set_ne p i _ hp hi hv hvne))]
  exact ⟨_, rfl⟩

/-- Witness for C6 at a concrete input: flipping bit 3 of the second payload
byte of the frame for payload `[7, 8]` is rejected. -/
theorem crc_detects_bit_flip_witness :
    ∃ mb, (NewFrame 5 [7, 8]).Marshal = some mb ∧
      ∃ e, UnmarshalFrame (flipBit mb (FrameHeaderSize + 1) 3) = Except.error e :=
  crc_detects_bit_flip 5 [7, 8] (by decide) (by norm_num [FrameHeaderSize]) 1 3 (by norm_num)
    (by norm_num)

/-- Claim C7: enhanced frame rejection is total.  For every byte slice,
`UnmarshalFrame` returns an error whenever the slice is shorter than 18
bytes, its first two bytes are not `0x50 0x59`, its length field differs
from the actual length, or its CRC32C field differs from the Castagnoli
checksum of the payload; on well-formed input it succeeds and returns the
embedded request id and payload.  The model is a total function, mirroring
that the Go code indexes `data` only after the length guard and cannot
panic. -/
theorem unmarshal_frame_total (data : List Nat) :
    ((data.length < FrameHeaderSize ∨ data.getD 0 0 ≠ MagicByte1 ∨ data.getD 1 0 ≠ MagicByte2 ∨
        word32At data 2 ≠ data.length ∨ crc32c (data.drop FrameHeaderSize) ≠ word32At data 14) →
      ∃ e, UnmarshalFrame data = Except.error e) ∧
    (FrameHeaderSize ≤ data.length → data.getD 0 0 = MagicByte1 → data.getD 1 0 = MagicByte2 →
      word32At data 2 = data.length → crc32c (data.drop FrameHeaderSize) = word32At data 14 →
      UnmarshalFrame data = Except.ok
        { header :=
            { magic0 := MagicByte1
              magic1 := MagicByte2
              length := data.length
              requestID := word64At data 6
              CRC32C := word32At data 14 }
          payload := data.drop FrameHeaderSize }) := by
  constructor
  · intro h
    unfold UnmarshalFrame
    split_ifs with h1 h2 h3 h4
    · exact ⟨_, rfl⟩
    · exact ⟨_, rfl⟩
    · exact ⟨_, rfl⟩
    · exact ⟨_, rfl⟩
    · exfalso
      push_neg at h2
      rcases h with h | h | h | h | h
      · exact h1 h
      · exact h h2.1
      · exact h h2.2
      · exact h3 h
      · exact h4 h
  · intro h18 hm0 hm1 hlen hcrc
    unfold UnmarshalFrame
    have hmagic : ¬(data.getD 0 0 ≠ MagicByte1 ∨ data.getD 1 0 ≠ MagicByte2) := by
      rw [hm0, hm1]
      simp
    have hlen2 : ¬(word32At data 2 ≠ data.length) := by
      rw [hlen]
      simp
    have hcrc2 : ¬(crc32c (data.drop FrameHeaderSize) ≠ word32At data 14) := by
      rw [hcrc]
      simp
    rw [if_neg (by omega), if_neg hmagic, if_neg hlen2, if_neg hcrc2]
    rw [hm0, hm1, hlen]

/-- Witness for C7: the empty slice is rejected, and a concrete well-formed
frame with payload `[7]` is accepted. -/
theorem unmarshal_frame_total_witness :
    (∃ e, UnmarshalFrame [] = Except.error e) ∧
    UnmarshalFrame (([MagicByte1, MagicByte2] ++ be32enc 19 ++ be64enc 5 ++
        be32enc (crc32c [7])) ++ [7]) = Except.ok
      { header :=
          { magic0 := MagicByte1
            magic1 := MagicByte2
            length := (([MagicByte1, MagicByte2] ++ be32enc 19 ++ be64enc 5 ++
              be32enc (crc32c [7])) ++ [7]).length
            requestID := word64At (([MagicByte1, MagicByte2] ++ be32enc 19 ++ be64enc 5 ++
              be32enc (crc32c [7])) ++ [7]) 6
            CRC32C := word32At (([MagicByte1, MagicByte2] ++ be32enc 19 ++ be64enc 5 ++
              be32enc (crc32c [7])) ++ [7]) 14 }
        payload := (([MagicByte1, MagicByte2] ++ be32enc 19 ++ be64enc 5 ++
          be32enc (crc32c [7])) ++ [7]).drop FrameHeaderSize } :=
  ⟨(unmarshal_frame_total []).1 (Or.inl (by norm_num [FrameHeaderSize])),
    (unmarshal_frame_total _).2 (by decide) (by decide) (by decide) (by decide) (by decide)⟩

/-! ## Pool round-robin selection (`pkg/pyproc/pool.go`, `Pool.Call`)

`Pool.Call` runs `idx := p.nextIdx.Add(1) - 1` on an `atomic.Uint64` and
serves the request with `p.workers[idx%uint64(len(p.workers))]`.  `Add(1)`
wraps at `2 ^ 64` and returns the new value, so for the `c`-th call
(counting from 0 on a fresh pool) `idx = c % 2 ^ 64`.  If the chosen
worker's healthy flag is false, the code scans `p.workers` from the start
and takes the first healthy one; if none is healthy it returns the
"no healthy workers available" error at pool.go:166, before a connection
is acquired and before anything is sent. -/

/-- The worker index chosen by round-robin for the `c`-th call of a pool of
`n` workers. -/
def rrServe (c n : Nat) : Nat := c % 2 ^ 64 % n

/-- The worker indices serving `k` sequential calls of a fresh pool of `n`
healthy workers. -/
def rrSequence (n k : Nat) : List Nat := (List.range k).map (fun c => rrServe c n)

/-- The `for _, w := range p.workers` fallback loop of `Pool.Call`: the
index of the first worker whose healthy flag is set. -/
def firstHealthy : List Bool → Option Nat
  | [] => none
  | true :: _ => some 0
  | false :: rest => (firstHealthy rest).map (· + 1)

/-- Worker selection of `Pool.Call` for the `c`-th call: the round-robin
choice when healthy, otherwise the first healthy worker, otherwise `none`
(the "no healthy workers available" error). -/
def poolSelect (healthy : List Bool) (c : Nat) : Option Nat :=
  let idx := rrServe c healthy.length
  if healthy.getD idx false = true then some idx
  else firstHealthy healthy

/-- Claim C3 (amended): round-robin worker selection.  For `n` workers all
healthy, the `c`-th sequential call (counting from 0, with `c < 2 ^ 64`
before the 64-bit counter wraps) is served by worker `c % n`; in
particular a pool of 3 workers serves 9 sequential calls in worker order
0,1,2,0,1,2,0,1,2. -/
theorem pool_round_robin (n c : Nat) (hn : 0 < n) (hc : c < 2 ^ 64) :
    rrServe c n = c % n ∧ rrSequence 3 9 = [0, 1, 2, 0, 1, 2, 0, 1, 2] := by
  constructor
  · unfold rrServe
    rw [Nat.mod_eq_of_lt hc]
  · decide

/-- Witness for C3: the 4-th call of a 3-worker pool goes to worker 1. -/
theorem pool_round_robin_witness :
    rrServe 4 3 = 4 % 3 ∧ rrSequence 3 9 = [0, 1, 2, 0, 1, 2, 0, 1, 2] :=
  pool_round_robin 3 4 (by norm_num) (by norm_num)

/-- Counterexample to C3 as stated: at the `2 ^ 64`-th sequential call the
`atomic.Uint64` counter has wrapped to 0, so the call is served by worker
0, not worker `2 ^ 64 % 3 = 1` as the unbounded claim demands. -/
theorem pool_round_robin_cx : rrServe (2 ^ 64) 3 = 0 ∧ 2 ^ 64 % 3 = 1 := by
  constructor
  · unfold rrServe
    norm_num
  · norm_num

theorem firstHealthy_spec : ∀ (l : List Bool) (j : Nat), firstHealthy l = some j →
    l.getD j false = true ∧ ∀ k, k < j → l.getD k false = false := by
  intro l
  induction l with
  | nil =>
    intro j h
    simp [firstHealthy] at h
  | cons b rest ih =>
    intro j h
    cases b with
    | true =>
      simp only [firstHealthy, Option.some.injEq] at h
      subst h
      exact ⟨rfl, fun k hk => absurd hk (Nat.not_lt_zero k)⟩
    | false =>
      simp only [firstHealthy, Option.map_eq_some'] at h
      obtain ⟨j2, hj2, rfl⟩ := h
      obtain ⟨hget, hbefore⟩ := ih j2 hj2
      refine ⟨hget, fun k hk => ?_⟩
      cases k with
      | zero => rfl
      | succ k2 =>
        exact hbefore k2 (by omega)

theorem firstHealthy_none : ∀ l : List Bool, firstHealthy l = none ↔
    ∀ k, k < l.length → l.getD k false = false := by
  intro l
  induction l with
  | nil => simp [firstHealthy]
  | cons b rest ih =>
    cases b with
    | true =>
      simp only [firstHealthy]
      constructor
      · intro h
        exact absurd h (by simp)
      · intro h
        have := h 0 (by simp)
        simp at this
    | false =>
      simp only [firstHealthy, Option.map_eq_none', ih]
      constructor
      · intro h k hk
        cases k with
        | zero => rfl
        | succ k2 => exact h k2 (by simpa using hk)
      · intro h k hk
        exact h (k + 1) (by simpa using hk)

/-- Claim C4: unhealthy-worker fallback.  If the round-robin-chosen worker
is not healthy, `Pool.Call` selects the first healthy worker in index
order (the scan of the remaining workers); if no worker is healthy it
returns the "no healthy workers" error (`poolSelect` is `none`), which in
the Go code happens before any request is sent. -/
theorem pool_unhealthy_fallback (healthy : List Bool) (c : Nat) (hn : 0 < healthy.length)
    (hchosen : healthy.getD (rrServe c healthy.length) false = false) :
    (∀ j, poolSelect healthy c = some j →
      healthy.getD j false = true ∧ ∀ k, k < j → healthy.getD k false = false) ∧
    (poolSelect healthy c = none ↔
      ∀ k, k < healthy.length → healthy.getD k false = false) := by
  simp only [poolSelect, hchosen, Bool.false_eq_true, if_false]
  exact ⟨fun j h => firstHealthy_spec healthy j h, firstHealthy_none healthy⟩

/-- Witness for C4: with workers `[false, true, false]` and the round-robin
choice falling on the unhealthy worker 0, worker 1 is selected. -/
theorem pool_unhealthy_fallback_witness :
    (∀ j, poolSelect [false, true, false] 0 = some j →
      ([false, true, false] : List Bool).getD j false = true ∧
        ∀ k, k < j → ([false, true, false] : List Bool).getD k false = false) ∧
    (poolSelect [false, true, false] 0 = none ↔
      ∀ k, k < ([false, true, false] : List Bool).length →
        ([false, true, false] : List Bool).getD k false = false) :=
  pool_unhealthy_fallback [false, true, false] 0 (by norm_num) (by decide)

/-! ## Worker lifecycle (`pkg/pyproc/worker.go`)

The worker state lives in one atomic cell (`w.state`) next to an atomic
pid cell (`w.pid`).  Each operation is embedded as a function from the
worker's (state, pid) pair to a trace recording, in program order, the
value of the pair **after every atomic write** (`snaps`) and every state
transition performed (`transitions`), together with the final pair.

* `Worker.Start` (worker.go:69-159): CAS `Stopped→Starting`; on
  `cmd.Start()` failure `state.Store(Stopped)` (worker.go:106) — note the
  direct `Starting→Stopped` transition; otherwise `pid.Store(cmd.Process.Pid)`
  (worker.go:114), then on socket-readiness failure a call to `Stop`, and
  on success `state.Store(Running)` (worker.go:155).  The environment is
  abstracted by `spawnOk` (did `cmd.Start()` succeed), `spawnPid` (the
  nonzero OS pid) and `socketOk` (did the socket become connectable).
* `Worker.Stop` (worker.go:162-218): CAS `Running→Stopping` or
  `Starting→Stopping`, else return nil; then `state.Store(Stopped)` and
  `pid.Store(0)` (worker.go:213-214).
* `Worker.monitor` (worker.go:263-296): on observing process exit while
  the state is `Running`, `state.Store(Stopped)` then `pid.Store(0)`
  (worker.go:292-293); otherwise nothing.
* `Worker.Restart` (worker.go:242-260): `Stop` then `Start`. -/

/-- `pyproc.WorkerState`. -/
inductive WorkerState where
  | Stopped
  | Starting
  | Running
  | Stopping
deriving DecidableEq

/-- The worker's atomic cells: lifecycle state and recorded pid. -/
structure WorkerM where
  state : WorkerState
  pid : Nat
deriving DecidableEq

/-- A trace of one worker operation: the (state, pid) pair after every
atomic write, the state transitions performed, and the final pair. -/
structure WTrace where
  snaps : List WorkerM
  transitions : List (WorkerState × WorkerState)
  final : WorkerM
deriving DecidableEq

/-- `Worker.Stop`. -/
def workerStop (w : WorkerM) : WTrace :=
  if w.state = WorkerState.Running ∨ w.state = WorkerState.Starting then
    { snaps := [⟨WorkerState.Stopping, w.pid⟩, ⟨WorkerState.Stopped, w.pid⟩,
        ⟨WorkerState.Stopped, 0⟩]
      transitions := [(w.state, WorkerState.Stopping),
        (WorkerState.Stopping, WorkerState.Stopped)]
      final := ⟨WorkerState.Stopped, 0⟩ }
  else
    { snaps := [], transitions := [], final := w }

/-- `Worker.Start`. -/
def workerStart (w : WorkerM) (spawnPid : Nat) (spawnOk socketOk : Bool) : WTrace :=
  if w.state ≠ WorkerState.Stopped then
    { snaps := [], transitions := [], final := w }
  else if spawnOk = false then
    { snaps := [⟨WorkerState.Starting, w.pid⟩, ⟨WorkerState.Stopped, w.pid⟩]
      transitions := [(WorkerState.Stopped, WorkerState.Starting),
        (WorkerState.Starting, WorkerState.Stopped)]
      final := ⟨WorkerState.Stopped, w.pid⟩ }
  else if socketOk = false then
    let st := workerStop ⟨WorkerState.Starting, spawnPid⟩
    { snaps := [⟨WorkerState.Starting, w.pid⟩, ⟨WorkerState.Starting, spawnPid⟩] ++ st.snaps
      transitions := [(WorkerState.Stopped, WorkerState.Starting)] ++ st.transitions
      final := st.final }
  else
    { snaps := [⟨WorkerState.Starting, w.pid⟩, ⟨WorkerState.Starting, spawnPid⟩,
        ⟨WorkerState.Running, spawnPid⟩]
      transitions := [(WorkerState.Stopped, WorkerState.Starting),
        (WorkerState.Starting, WorkerState.Running)]
      final := ⟨WorkerState.Running, spawnPid⟩ }

/-- The monitor goroutine observing an unexpected process exit. -/
def workerMonitorExit (w : WorkerM) : WTrace :=
  if w.state = WorkerState.Running then
    { snaps := [⟨WorkerState.Stopped, w.pid⟩, ⟨WorkerState.Stopped, 0⟩]
      transitions := [(WorkerState.Running, WorkerState.Stopped)]
      final := ⟨WorkerState.Stopped, 0⟩ }
  else
    { snaps := [], transitions := [], final := w }

/-- `Worker.Restart`: `Stop` then `Start` (`Stop` always returns nil). -/
def workerRestart (w : WorkerM) (spawnPid : Nat) (spawnOk socketOk : Bool) : WTrace :=
  let st := workerStop w
  let s2 := workerStart st.final spawnPid spawnOk socketOk
  { snaps := st.snaps ++ s2.snaps
    transitions := st.transitions ++ s2.transitions
    final := s2.final }

/-- The operations that drive a worker's state. -/
inductive WorkerOp where
  | start (spawnPid : Nat) (spawnOk socketOk : Bool)
  | stop
  | monitorExit
  | restart (spawnPid : Nat) (spawnOk socketOk : Bool)

/-- Dispatch of a worker operation. -/
def applyWorkerOp (w : WorkerM) : WorkerOp → WTrace
  | WorkerOp.start spawnPid spawnOk socketOk => workerStart w spawnPid spawnOk socketOk
  | WorkerOp.stop => workerStop w
  | WorkerOp.monitorExit => workerMonitorExit w
  | WorkerOp.restart spawnPid spawnOk socketOk => workerRestart w spawnPid spawnOk socketOk

/-- The six transitions listed by the claim. -/
def claimTransitions : List (WorkerState × WorkerState) :=
  [(WorkerState.Stopped, WorkerState.Starting), (WorkerState.Starting, WorkerState.Running),
   (WorkerState.Starting, WorkerState.Stopping), (WorkerState.Running, WorkerState.Stopping),
   (WorkerState.Stopping, WorkerState.Stopped), (WorkerState.Running, WorkerState.Stopped)]

theorem workerStop_transitions (w : WorkerM) (t : WorkerState × WorkerState)
    (ht : t ∈ (workerStop w).transitions) : t ∈ claimTransitions := by
  unfold workerStop at ht
  split at ht
  · rename_i h
    simp only [List.mem_cons, List.not_mem_nil, or_false] at ht
    rcases h with h | h <;> rw [h] at ht <;> rcases ht with rfl | rfl <;> decide
  · simp at ht

theorem workerStart_transitions (w : WorkerM) (spawnPid : Nat) (spawnOk socketOk : Bool)
    (t : WorkerState × WorkerState) (ht : t ∈ (workerStart w spawnPid spawnOk socketOk).transitions) :
    t ∈ claimTransitions ∨ t = (WorkerState.Starting, WorkerState.Stopped) := by
  unfold workerStart at ht
  split at ht
  · simp at ht
  split at ht
  · simp only [List.mem_cons, List.not_mem_nil, or_false] at ht
    rcases ht with rfl | rfl
    · exact Or.inl (by decide)
    · exact Or.inr rfl
  split at ht
  · simp only [List.cons_append, List.nil_append, List.mem_cons] at ht
    rcases ht with rfl | ht
    · exact Or.inl (by decide)
    · exact Or.inl (workerStop_transitions _ t ht)
  · simp only [List.mem_cons, List.not_mem_nil, or_false] at ht
    rcases ht with rfl | rfl <;> exact Or.inl (by decide)

theorem workerMonitorExit_transitions (w : WorkerM) (t : WorkerState × WorkerState)
    (ht : t ∈ (workerMonitorExit w).transitions) : t ∈ claimTransitions := by
  unfold workerMonitorExit at ht
  split at ht
  · simp only [List.mem_cons, List.not_mem_nil, or_false] at ht
    rcases ht with rfl
    decide
  · simp at ht

/-- Claim C5 (amended): worker state-machine transitions.  Every state
transition performed by `Worker.Start`, `Worker.Stop`, `Worker.Restart`
or the monitor goroutine is one of the six transitions of the claim
**or** the additional `Starting→Stopped` transition that `Start` performs
directly when spawning the process fails (worker.go:106). -/
theorem worker_transitions (w : WorkerM) (op : WorkerOp) (t : WorkerState × WorkerState)
    (ht : t ∈ (applyWorkerOp w op).transitions) :
    t ∈ claimTransitions ∨ t = (WorkerState.Starting, WorkerState.Stopped) := by
  cases op with
  | start spawnPid spawnOk socketOk => exact workerStart_transitions w spawnPid spawnOk socketOk t ht
  | stop => exact Or.inl (workerStop_transitions w t ht)
  | monitorExit => exact Or.inl (workerMonitorExit_transitions w t ht)
  | restart spawnPid spawnOk socketOk =>
    simp only [applyWorkerOp, workerRestart, List.mem_append] at ht
    rcases ht with ht | ht
    · exact Or.inl (workerStop_transitions w t ht)
    · exact workerStart_transitions _ spawnPid spawnOk socketOk t ht

/-- Witness for C5 at a concrete input: the `Stopped→Starting` transition
of a successful `Start`. -/
theorem worker_transitions_witness :
    (WorkerState.Stopped, WorkerState.Starting) ∈ claimTransitions ∨
      (WorkerState.Stopped, WorkerState.Starting) =
        (WorkerState.Starting, WorkerState.Stopped) :=
  worker_transitions ⟨WorkerState.Stopped, 0⟩ (WorkerOp.start 42 true true)
    (WorkerState.Stopped, WorkerState.Starting) (by decide)

/-- Counterexample to C5 as stated: when `cmd.Start()` fails, `Worker.Start`
performs the transition `Starting→Stopped` (worker.go:106), which is not
among the six transitions listed by the claim. -/
theorem worker_transitions_cx :
    (WorkerState.Starting, WorkerState.Stopped) ∈
      (applyWorkerOp ⟨WorkerState.Stopped, 0⟩ (WorkerOp.start 42 false true)).transitions ∧
    (WorkerState.Starting, WorkerState.Stopped) ∉ claimTransitions := by
  decide

/-- The claimed process-id/state relation: the recorded pid is non-zero iff
the state is `Starting`, `Running` or `Stopping`. -/
def pidStateInv (w : WorkerM) : Prop :=
  w.pid ≠ 0 ↔ (w.state = WorkerState.Starting ∨ w.state = WorkerState.Running ∨
    w.state = WorkerState.Stopping)

instance (w : WorkerM) : Decidable (pidStateInv w) := by
  unfold pidStateInv
  infer_instance

/-- Validity of a worker operation's environment: the OS never reports pid 0
for a spawned process. -/
def workerOpValid : WorkerOp → Prop
  | WorkerOp.start spawnPid _ _ => spawnPid ≠ 0
  | WorkerOp.restart spawnPid _ _ => spawnPid ≠ 0
  | WorkerOp.stop => True
  | WorkerOp.monitorExit => True

theorem workerStop_pidStateInv (w : WorkerM) (hw : pidStateInv w) :
    pidStateInv (workerStop w).final := by
  unfold workerStop
  split
  · exact (show pidStateInv ⟨WorkerState.Stopped, 0⟩ by decide)
  · exact hw

theorem workerStart_pidStateInv (w : WorkerM) (spawnPid : Nat) (spawnOk socketOk : Bool)
    (hpid : spawnPid ≠ 0) (hw : pidStateInv w) :
    pidStateInv (workerStart w spawnPid spawnOk socketOk).final := by
  unfold workerStart
  split
  · exact hw
  rename_i hstopped
  push_neg at hstopped
  have hpid0 : w.pid = 0 := by
    by_contra hne
    rcases hw.mp hne with h | h | h <;> rw [hstopped] at h <;> exact absurd h (by decide)
  split
  · rw [hpid0]
    exact (show pidStateInv ⟨WorkerState.Stopped, 0⟩ by decide)
  split
  · exact (show pidStateInv ⟨WorkerState.Stopped, 0⟩ by decide)
  · constructor
    · intro _
      exact Or.inr (Or.inl rfl)
    · intro _
      exact hpid

theorem workerMonitorExit_pidStateInv (w : WorkerM) (hw : pidStateInv w) :
    pidStateInv (workerMonitorExit w).final := by
  unfold workerMonitorExit
  split
  · exact (show pidStateInv ⟨WorkerState.Stopped, 0⟩ by decide)
  · exact hw

/-- Claim C10 (amended): process-id/state relation at operation
boundaries.  Each complete worker operation preserves the relation "pid is
non-zero iff state is Starting, Running or Stopping".  (The relation does
not hold at every intermediate point: inside `Start` there is a window
after the transition to `Starting` and before the pid is recorded, and
inside `Stop`/the monitor a window after the transition to `Stopped` and
before the pid reset — see the counterexample.) -/
theorem pid_state_inv_preserved (w : WorkerM) (op : WorkerOp) (hw : pidStateInv w)
    (hop : workerOpValid op) : pidStateInv (applyWorkerOp w op).final := by
  cases op with
  | start spawnPid spawnOk socketOk => exact workerStart_pidStateInv w spawnPid spawnOk socketOk hop hw
  | stop => exact workerStop_pidStateInv w hw
  | monitorExit => exact workerMonitorExit_pidStateInv w hw
  | restart spawnPid spawnOk socketOk =>
    simp only [applyWorkerOp, workerRestart]
    exact workerStart_pidStateInv _ spawnPid spawnOk socketOk hop (workerStop_pidStateInv w hw)

/-- Witness for C10 at a concrete input: a successful `Start` from the
initial worker state ends in `Running` with the recorded pid 42. -/
theorem pid_state_inv_preserved_witness :
    pidStateInv (applyWorkerOp ⟨WorkerState.Stopped, 0⟩ (WorkerOp.start 42 true true)).final :=
  pid_state_inv_preserved ⟨WorkerState.Stopped, 0⟩ (WorkerOp.start 42 true true) (by decide)
    (show (42 : Nat) ≠ 0 by decide)

/-- Counterexample to C10 as stated: "at every point" fails.  Right after
the CAS `Stopped→Starting` at the top of `Worker.Start` (worker.go:70) and
before `pid.Store` (worker.go:114), the worker is in state `Starting` with
pid still 0 — this snapshot appears in the trace of a successful `Start`
and violates the claimed equivalence. -/
theorem pid_state_inv_cx :
    (⟨WorkerState.Starting, 0⟩ : WorkerM) ∈
      (applyWorkerOp ⟨WorkerState.Stopped, 0⟩ (WorkerOp.start 42 true true)).snaps ∧
    ¬ pidStateInv ⟨WorkerState.Starting, 0⟩ := by
  decide

/-! ## Multiplexed transport read-error handling
(`pkg/pyproc/transport_multiplexed.go`)

`MultiplexedTransport` keeps a table of `pendingRequest`s (id, buffered
response channel, buffered error channel of capacity 1, timeout timer) and
a `closed` flag.  `handleReadError` (transport_multiplexed.go:147-165)
iterates over the pending table; for each entry it delivers a
"connection error" on the error channel (skipping if it is already full —
the `select`/`default`), stops the timer and deletes the entry; then it
stores `closed = true` and closes the close channel.  `Call`
(transport_multiplexed.go:168-171) returns the "transport is closed" error
before generating an id, registering anything or writing to the
connection whenever `closed` is set. -/

/-- A `pendingRequest`: the id, the content of the 1-buffered error channel
and whether the timer has been stopped. -/
structure PendingCall where
  id : Nat
  errDelivered : Option String
  timerStopped : Bool
deriving DecidableEq

/-- The multiplexed transport state relevant to the claims. -/
structure MuxState where
  requestID : Nat
  pending : List PendingCall
  closed : Bool
deriving DecidableEq

/-- `select { case pending.errCh <- err: default: }`: deliver the error only
if the 1-buffered channel is empty. -/
def deliverErr (pc : PendingCall) (msg : String) : PendingCall :=
  if pc.errDelivered = none then { pc with errDelivered := some msg } else pc

/-- `pending.timer.Stop()`. -/
def stopTimer (pc : PendingCall) : PendingCall := { pc with timerStopped := true }

/-- One iteration of the `for id, pending := range t.pending` loop of
`handleReadError`: notify and stop the entry, delete it from the table. -/
def readErrStep (acc : List PendingCall × List PendingCall) (pc : PendingCall) :
    List PendingCall × List PendingCall :=
  (acc.1.filter (fun q => q.id != pc.id),
   acc.2 ++ [stopTimer (deliverErr pc "connection error")])

/-- `MultiplexedTransport.handleReadError`: returns the new transport state
and the list of pending calls as notified and removed. -/
def handleReadError (s : MuxState) : MuxState × List PendingCall :=
  let result := s.pending.foldl readErrStep (s.pending, [])
  ({ s with pending := result.1, closed := true }, result.2)

/-- The send phase of `MultiplexedTransport.Call`: fail if closed (before
anything is sent), otherwise take the next request id, register a fresh
pending call and write the marshalled enhanced frame. -/
def muxCall (s : MuxState) (payload : List Nat) :
    Except String (MuxState × Option (List Nat)) :=
  if s.closed = true then Except.error "transport is closed"
  else
    let rid := (s.requestID + 1) % 2 ^ 64
    Except.ok
      ({ requestID := rid
         pending := s.pending ++ [{ id := rid, errDelivered := none, timerStopped := false }]
         closed := s.closed },
       (NewFrame rid payload).Marshal)

theorem readErr_fold_fst : ∀ (l r acc2 : List PendingCall),
    (∀ q ∈ r, ∃ pc ∈ l, q.id = pc.id) →
    (l.foldl readErrStep (r, acc2)).1 = [] := by
  intro l
  induction l with
  | nil =>
    intro r acc2 h
    cases r with
    | nil => rfl
    | cons q rest =>
      obtain ⟨pc, hpc, _⟩ := h q (List.mem_cons_self _ _)
      simp at hpc
  | cons pc rest ih =>
    intro r acc2 h
    rw [List.foldl_cons]
    apply ih
    intro q hq
    have hqr : q ∈ r := List.mem_of_mem_filter hq
    have hne : q.id ≠ pc.id := by
      have := List.of_mem_filter hq
      simpa using this
    obtain ⟨pc2, hpc2, hid⟩ := h q hqr
    rcases List.mem_cons.mp hpc2 with rfl | hmem
    · exact absurd hid hne
    · exact ⟨pc2, hmem, hid⟩

theorem readErr_fold_snd : ∀ (l r acc2 : List PendingCall),
    (l.foldl readErrStep (r, acc2)).2 =
      acc2 ++ l.map (fun pc => stopTimer (deliverErr pc "connection error")) := by
  intro l
  induction l with
  | nil =>
    intro r acc2
    simp
  | cons pc rest ih =>
    intro r acc2
    rw [List.foldl_cons, ih]
    simp [readErrStep]

/-- Claim C8: multiplexed transport failure is terminal.  After
`handleReadError`, every previously outstanding pending request has been
delivered the "connection error" with its timer stopped, the pending
table is empty, the transport is closed, and every subsequent `Call`
fails with "transport is closed" without writing anything (in the model,
an error carries no state change and no frame). -/
theorem mux_read_error_terminal (s : MuxState)
    (houtstanding : ∀ pc ∈ s.pending, pc.errDelivered = none) :
    (handleReadError s).1.closed = true ∧
    (handleReadError s).1.pending = [] ∧
    (handleReadError s).2 = s.pending.map
      (fun pc => { pc with errDelivered := some "connection error", timerStopped := true }) ∧
    (∀ payload, muxCall (handleReadError s).1 payload =
      Except.error "transport is closed") := by
  refine ⟨rfl, ?_, ?_, ?_⟩
  · show (s.pending.foldl readErrStep (s.pending, [])).1 = []
    exact readErr_fold_fst s.pending s.pending [] (fun q hq => ⟨q, hq, rfl⟩)
  · show (s.pending.foldl readErrStep (s.pending, [])).2 = _
    rw [readErr_fold_snd]
    rw [List.nil_append]
    apply List.map_congr_left
    intro pc hpc
    simp [stopTimer, deliverErr, houtstanding pc hpc]
  · intro payload
    simp [muxCall, handleReadError]

/-- Witness for C8 at a concrete state with two outstanding calls. -/
theorem mux_read_error_terminal_witness :
    (handleReadError ⟨2, [⟨1, none, false⟩, ⟨2, none, false⟩], false⟩).1.closed = true ∧
    (handleReadError ⟨2, [⟨1, none, false⟩, ⟨2, none, false⟩], false⟩).1.pending = [] ∧
    (handleReadError ⟨2, [⟨1, none, false⟩, ⟨2, none, false⟩], false⟩).2 =
      ([⟨1, none, false⟩, ⟨2, none, false⟩] : List PendingCall).map
        (fun pc => { pc with errDelivered := some "connection error", timerStopped := true }) ∧
    (∀ payload, muxCall (handleReadError ⟨2, [⟨1, none, false⟩, ⟨2, none, false⟩], false⟩).1
      payload = Except.error "transport is closed") :=
  mux_read_error_terminal ⟨2, [⟨1, none, false⟩, ⟨2, none, false⟩], false⟩ (by decide)

/-! ## Pool shutdown (`pkg/pyproc/pool.go`, `Pool.Shutdown`)

`Shutdown` first runs `p.shutdown.CompareAndSwap(false, true)`; when the
CAS fails (the flag was already set) it returns nil immediately without
touching anything (pool.go:242-244).  Otherwise it cancels the health
monitor, closes every worker's connection pool (closing queued idle
connections), stops every worker collecting the errors, and returns an
aggregated error iff some `Stop` failed.  Side effects are recorded as an
event log; `stopErr i` abstracts whether worker `i`'s `Stop` returns an
error. -/

/-- An observable side effect of `Pool.Shutdown`. -/
inductive PoolEvent where
  | cancelHealth
  | closeConnPool (i : Nat)
  | stopWorker (i : Nat)
deriving DecidableEq

/-- The pool state relevant to shutdown: the `shutdown` atomic flag and the
log of performed side effects. -/
structure PoolShutdownState where
  shuttingDown : Bool
  events : List PoolEvent
deriving DecidableEq

/-- `Pool.Shutdown` for a pool of `n` workers: returns the new state and
whether the call returned success. -/
def poolShutdown (n : Nat) (stopErr : Nat → Bool) (s : PoolShutdownState) :
    PoolShutdownState × Bool :=
  if s.shuttingDown = true then (s, true)
  else
    ({ shuttingDown := true
       events := s.events ++ [PoolEvent.cancelHealth] ++
         (List.range n).map PoolEvent.closeConnPool ++
         (List.range n).map PoolEvent.stopWorker },
     (List.range n).all (fun i => !stopErr i))

/-- Claim C9: pool shutdown is idempotent.  From a running pool, the first
`Shutdown` sets the shutting-down flag, cancels the health monitor,
closes every worker's connection pool and stops every worker, returning
success iff no worker `Stop` errored; the second (and hence every later)
call returns success immediately with the state unchanged, and in the
combined log every connection pool is closed exactly once — no resource
is closed twice. -/
theorem pool_shutdown_idempotent (n : Nat) (stopErr : Nat → Bool) :
    (poolShutdown n stopErr ⟨false, []⟩).1.shuttingDown = true ∧
    PoolEvent.cancelHealth ∈ (poolShutdown n stopErr ⟨false, []⟩).1.events ∧
    (∀ i, i < n → PoolEvent.closeConnPool i ∈ (poolShutdown n stopErr ⟨false, []⟩).1.events ∧
      PoolEvent.stopWorker i ∈ (poolShutdown n stopErr ⟨false, []⟩).1.events) ∧
    ((poolShutdown n stopErr ⟨false, []⟩).2 = true ↔ ∀ i, i < n → stopErr i = false) ∧
    poolShutdown n stopErr (poolShutdown n stopErr ⟨false, []⟩).1 =
      ((poolShutdown n stopErr ⟨false, []⟩).1, true) ∧
    (∀ i, ((poolShutdown n stopErr ⟨false, []⟩).1.events.count (PoolEvent.closeConnPool i)) =
      if i < n then 1 else 0) := by
  have hfirst : poolShutdown n stopErr ⟨false, []⟩ =
      (⟨true, [] ++ [PoolEvent.cancelHealth] ++ (List.range n).map PoolEvent.closeConnPool ++
        (List.range n).map PoolEvent.stopWorker⟩,
       (List.range n).all (fun i => !stopErr i)) := by
    simp [poolShutdown]
  rw [hfirst]
  refine ⟨rfl, ?_, ?_, ?_, ?_, ?_⟩
  · simp
  · intro i hi
    constructor
    · simp only [List.mem_append]
      exact Or.inl (Or.inr (List.mem_map_of_mem _ (List.mem_range.mpr hi)))
    · simp only [List.mem_append]
      exact Or.inr (List.mem_map_of_mem _ (List.mem_range.mpr hi))
  · simp only [List.all_eq_true, List.mem_range]
    constructor
    · intro h i hi
      have := h i hi
      simpa using this
    · intro h i hi
      simpa using h i hi
  · simp [poolShutdown]
  · intro i
    have hinj : Function.Injective PoolEvent.closeConnPool := fun a b h => by
      injection h
    have hstop : List.count (PoolEvent.closeConnPool i)
        ((List.range n).map PoolEvent.stopWorker) = 0 :=
      List.count_eq_zero.mpr (by simp)
    have hcancel : List.count (PoolEvent.closeConnPool i) [PoolEvent.cancelHealth] = 0 :=
      List.count_eq_zero.mpr (by simp)
    simp only [List.count_append, List.count_nil, hstop, hcancel,
      List.count_map_of_injective _ _ hinj, List.count_eq_of_nodup (List.nodup_range n),
      List.mem_range]
    omega

/-- Witness for C9 at a concrete pool of two workers whose stops succeed. -/
theorem pool_shutdown_idempotent_witness :
    (poolShutdown 2 (fun _ => false) ⟨false, []⟩).1.shuttingDown = true ∧
    PoolEvent.cancelHealth ∈ (poolShutdown 2 (fun _ => false) ⟨false, []⟩).1.events ∧
    (∀ i, i < 2 →
      PoolEvent.closeConnPool i ∈ (poolShutdown 2 (fun _ => false) ⟨false, []⟩).1.events ∧
      PoolEvent.stopWorker i ∈ (poolShutdown 2 (fun _ => false) ⟨false, []⟩).1.events) ∧
    ((poolShutdown 2 (fun _ => false) ⟨false, []⟩).2 = true ↔
      ∀ i, i < 2 → (fun _ => false : Nat → Bool) i = false) ∧
    poolShutdown 2 (fun _ => false) (poolShutdown 2 (fun _ => false) ⟨false, []⟩).1 =
      ((poolShutdown 2 (fun _ => false) ⟨false, []⟩).1, true) ∧
    (∀ i, (poolShutdown 2 (fun _ => false) ⟨false, []⟩).1.events.count
      (PoolEvent.closeConnPool i) = if i < 2 then 1 else 0) :=
  pool_shutdown_idempotent 2 (fun _ => false)

end Pyproc
